import Mathlib

/-!
Shallow embedding of the pseudoterminal layer of the obsidian-terminal
repository (src/sources/terminal/pseudoterminal.ts and the display-surface
adapter / async-debounce utilities), together with proofs settling the
frozen claims about it.

Stateful TypeScript code is embedded as explicit state-passing functions;
promise cells are `Option` values with an at-most-once `settleCell`
operation; fallible operations return `Except`.
-/

/-! ## Promise cells and exit values -/

/-- A deferred promise cell (`promisePromise` in the source): `none` while
pending, `some v` once settled.  Settling an already-settled cell is a
no-op, matching JavaScript promise semantics. -/
def settleCell {α : Type} (c : Option α) (v : α) : Option α :=
  match c with
  | some x => some x
  | none => some v

/-- Exit value of a session: `NodeJS.Signals | number`, where the number
may be `NaN` (modelled as a separate constructor). -/
inductive ExitVal where
  | code (n : Int)
  | signal (s : String)
  | nan
  deriving DecidableEq

/-- Modelled from the spec: the synthetic success exit code (the
`EXIT_SUCCESS` constant imported from the magic-constants module, which is
not under src/); the conventional success exit code 0. -/
def EXIT_SUCCESS : Int := 0

/-! ## RefPsuedoterminal (reference-counted session wrapper)

`RefPsuedoterminal` (sic, source spelling) shares one mutable counter cell
`#ref` across the original wrapper and every wrapper produced by `dup()`.
The constructor increments the counter; `kill()` decrements it and either
fires the delegate's real kill (when the result is ≤ 0) or resolves the
calling wrapper's own exit future with `EXIT_SUCCESS`. -/

/-- Observable state of one delegate session shared by a family of
reference-counted wrappers: the shared counter, how many times the
delegate's real `kill` has fired, and which wrappers have had their own
exit future resolved synthetically (with the value used). -/
structure RefState where
  counter : Int
  realKills : Nat
  exits : List (Nat × ExitVal)
  deriving DecidableEq

/-- `new RefPsuedoterminal(delegate)` on a raw delegate: `#ref = [0]`
followed by `++this.#ref[0]`. -/
def refNew : RefState :=
  { counter := 1, realKills := 0, exits := [] }

/-- `dup()`: constructs a wrapper sharing the same `#ref` cell, whose
constructor increments the shared counter. -/
def refDup (s : RefState) : RefState :=
  { s with counter := s.counter + 1 }

/-- The shared state after the original construction followed by `n`
`dup()` calls. -/
def refDupN : Nat → RefState
  | 0 => refNew
  | n + 1 => refDup (refDupN n)

/-- `kill()` called on wrapper `w`: `if (--this.#ref[0] <= 0) await
this.delegate.kill()`, else resolve this wrapper's own exit-future
cell with `EXIT_SUCCESS`. -/
def refKill (s : RefState) (w : Nat) : RefState :=
  let c := s.counter - 1
  if c ≤ 0 then
    { s with counter := c, realKills := s.realKills + 1 }
  else
    { s with counter := c, exits := s.exits ++ [(w, ExitVal.code EXIT_SUCCESS)] }

/-- A sequence of `kill()` calls, identified by the wrapper making each
call. -/
def refKillSeq (s : RefState) (ws : List Nat) : RefState :=
  ws.foldl refKill s

/-- A single wrapper's own exit future (its private exit cell).  The
constructor registers `this.delegate.onExit.then(resolve, reject)`, so a
delegate settlement propagates to the wrapper's cell. -/
structure RefWrapper where
  exitCell : Option (Except String ExitVal)

/-- A freshly constructed wrapper: exit future pending. -/
def refWrapperNew : RefWrapper := { exitCell := none }

/-- Propagation registered in the constructor: when the delegate's
`onExit` settles with outcome `o` (resolution or rejection), the wrapper's
own cell is settled with the same outcome (a no-op if already settled). -/
def onDelegateExit (o : Except String ExitVal) (w : RefWrapper) : RefWrapper :=
  { exitCell := settleCell w.exitCell o }

/-! ## RefPsuedoterminal.resize -/

/-- A delegate session as seen by `RefPsuedoterminal.resize`: some state
plus an optional `resize` operation. -/
structure DelegateSession (σ : Type) where
  state : σ
  resizeOp : Option (Nat → Nat → σ → σ)

/-- Return value of `RefPsuedoterminal.resize`: either the delegated
call's result or `UNDEFINED`. -/
inductive ResizeReturn where
  | undef
  | delegated
  deriving DecidableEq

/-- `resize(columns, rows)`: `if (delegate.resize) return
delegate.resize(columns, rows); return UNDEFINED`. -/
def refResize {σ : Type} (d : DelegateSession σ) (c r : Nat) :
    ResizeReturn × σ :=
  match d.resizeOp with
  | some f => (ResizeReturn.delegated, f c r d.state)
  | none => (ResizeReturn.undef, d.state)

/-! ## PseudoPseudoterminal family: pipe

`PseudoPseudoterminal.pipe` throws when `exited` is set, before loading
the disposer addon and pushing the terminal; the `TextPseudoterminal` and
`DeveloperConsolePseudoterminal` overrides `await super.pipe(terminal)`
before doing any work of their own.  Terminals are identified by `Nat`. -/

/-- State of a `PseudoPseudoterminal`: the `exited` flag, the `terminals`
array, and the disposer addons loaded onto terminals. -/
structure PseudoState where
  exited : Bool
  terminals : List Nat
  addons : List Nat
  deriving DecidableEq

/-- `PseudoPseudoterminal.pipe(terminal)`: `if (this.exited) throw new
Error(); terminal.loadAddon(new DisposerAddon(...)); this.terminals
.push(terminal)`. -/
def pseudoPipe (s : PseudoState) (t : Nat) : Except Unit PseudoState :=
  if s.exited then Except.error ()
  else Except.ok
    { s with addons := s.addons ++ [t], terminals := s.terminals ++ [t] }

/-- State of a `TextPseudoterminal`: the base state plus the terminals
that received a full rewrite of the text on attach. -/
structure TextState where
  base : PseudoState
  rewrites : List Nat
  deriving DecidableEq

/-- `TextPseudoterminal.pipe`: `await super.pipe(terminal)` then
`await this.rewrite(normalizeText(this.text), [terminal])`. -/
def textPipe (s : TextState) (t : Nat) : Except Unit TextState :=
  match pseudoPipe s.base t with
  | Except.error e => Except.error e
  | Except.ok b => Except.ok { base := b, rewrites := s.rewrites ++ [t] }

/-- State of a `DeveloperConsolePseudoterminal`: the base state plus the
terminals that had input/key/resize handlers installed and that received
the log-history replay. -/
structure DevState where
  base : PseudoState
  handlers : List Nat
  replayed : List Nat
  deriving DecidableEq

/-- `DeveloperConsolePseudoterminal.pipe`: `await super.pipe(terminal)`,
then load the editor disposer addon, install the `onData`/`onKey`/
`onResize` handlers, and replay `this.log.history` to the terminal. -/
def devPipe (s : DevState) (t : Nat) : Except Unit DevState :=
  match pseudoPipe s.base t with
  | Except.error e => Except.error e
  | Except.ok b =>
    Except.ok
      { base := b, handlers := s.handlers ++ [t], replayed := s.replayed ++ [t] }

/-! ## DeveloperConsolePseudoterminal.eval

The evaluator echoes the code, parses it, and then attempts (1) the
rewritten-return strategy (`return [( lastStmt )]`) and, on a syntax
error there, (2) direct evaluation for side effects only.  The JavaScript
evaluation itself is an external collaborator; a piece of code is
characterized by the outcomes of parsing and of the two strategies. -/

/-- A JavaScript value, as far as the claims need it. -/
inductive JSVal where
  | undef
  | num (n : Int)
  | str (s : String)
  deriving DecidableEq

/-- Outcome of `evaluate(codeRet, codeRetDeletions)`: it returned a
one-element array `[v]`, returned something that is not a one-element
array, threw a `SyntaxError`, or threw some other error. -/
inductive RewrittenOutcome where
  | retOne (v : JSVal)
  | retOther
  | throwSyntax
  | throwOther
  deriving DecidableEq

/-- A console interaction performed by `eval`: the initial
`console.log(code)` echo, a `console.log(ret[0])` of the result value, a
`console.error`, or a `console.debug`. -/
inductive ConsoleAction where
  | echo (code : String)
  | logVal (v : JSVal)
  | errLog
  | dbgLog
  deriving DecidableEq

/-- The abstract semantics of one piece of code: `parse` is `none` when
`parse(code, ...)` throws (a syntax error) and `some hasLast` otherwise,
where `hasLast` says whether `ast.body.at(-1)` exists (so that `codeRet`
is non-empty); `rewritten` is the outcome of strategy (1); `directOk`
says whether `evaluate(code)` (strategy (2)) succeeds. -/
structure CodeSem where
  parse : Option Bool
  rewritten : RewrittenOutcome
  directOk : Bool
  deriving DecidableEq

/-- `DeveloperConsolePseudoterminal.eval`, as the list of console actions
it performs after committing the buffer.  `ret` is `null` ↦ `none`,
`[]` ↦ `some none`, `[v]` ↦ `some (some v)`; the final step logs
`ret[0]`, which is `undefined` when `ret` is `[]`. -/
def devEval (code : String) (sem : CodeSem) : List ConsoleAction :=
  ConsoleAction.echo code ::
    match sem.parse with
    | none => [ConsoleAction.errLog]
    | some hasLast =>
      let direct : List ConsoleAction × Option (Option JSVal) :=
        if sem.directOk then ([], some none)
        else ([ConsoleAction.errLog], none)
      let run : List ConsoleAction × Option (Option JSVal) :=
        if hasLast then
          match sem.rewritten with
          | RewrittenOutcome.retOne v => ([], some (some v))
          | RewrittenOutcome.retOther => ([ConsoleAction.errLog], none)
          | RewrittenOutcome.throwSyntax =>
            (ConsoleAction.dbgLog :: direct.1, direct.2)
          | RewrittenOutcome.throwOther => ([ConsoleAction.errLog], none)
        else direct
      run.1 ++
        match run.2 with
        | none => []
        | some r =>
          [ConsoleAction.logVal (match r with
            | some v => v
            | none => JSVal.undef)]

/-! ## DeveloperConsolePseudoterminal history navigation

`ArrowUp`/`ArrowDown` update `#historyIndex` with JavaScript `%` (the
remainder operation, sign of the dividend) and read the entry with
`Array.prototype.at`, which wraps negative indices once. -/

/-- JavaScript's `%` on integers with a positive divisor: remainder with
the sign of the dividend. -/
def jsRem (a b : Int) : Int :=
  if a < 0 then -((-a) % b) else a % b

/-- `String.prototype.includes` with a single-character needle. -/
def jsIncludesChar (s : String) (c : Char) : Bool :=
  s.data.contains c

/-- The index normalization performed by `Array.prototype.at`: negative
indices are offset by the length once. -/
def jsIdx (i len : Int) : Int :=
  if i < 0 then i + len else i

/-- `Array.prototype.at` on a list of strings: out-of-range indices yield
`undefined`. -/
def jsAt (l : List String) (i : Int) : Option String :=
  if 0 ≤ jsIdx i (l.length : Int) ∧ jsIdx i (l.length : Int) < (l.length : Int)
  then l.get? (jsIdx i (l.length : Int)).toNat
  else none

/-- One `ArrowUp`/`ArrowDown` key press (`down = true` for `ArrowDown`)
on history `hist` with current index `idx` and buffer content `buf`:
navigation is skipped when the current (last) entry contains a newline or
the history is empty; otherwise the index becomes
`(idx ± 1) % hist.length` (JavaScript `%`) and the buffer is set to the
entry `hist.at(index)` when that entry exists. -/
def navStep (hist : List String) (idx : Int) (down : Bool) (buf : String) :
    Int × String :=
  if jsIncludesChar ((jsAt hist (-1)).getD "") '\n' then (idx, buf)
  else if hist.length ≤ 0 then (idx, buf)
  else
    let idx' := jsRem (idx + (if down then 1 else -1)) (hist.length : Int)
    match jsAt hist idx' with
    | none => (idx', buf)
    | some t => (idx', t)

/-! ## Unix and Windows kill

Both `UnixPseudoterminal.kill` and `WindowsPseudoterminal.kill` run
`if (!(await this.shell).kill()) { throw new Error(...) }`, where the
process handle's `kill()` returns whether a signal was actually delivered
to a live process (false when the process has already died). -/

/-- `UnixPseudoterminal.kill` as a function of the process handle's
`kill()` result. -/
def unixKill (shellKillResult : Bool) : Except String Unit :=
  if shellKillResult then Except.ok ()
  else Except.error "errors.error-killing-pseudoterminal"

/-- `WindowsPseudoterminal.kill` as a function of the process handle's
`kill()` result. -/
def windowsKill (shellKillResult : Bool) : Except String Unit :=
  if shellKillResult then Except.ok ()
  else Except.error "errors.error-killing-pseudoterminal"

/-! ## Windows exit-code recovery

On shell exit the Windows session reads the temp file, parses its trimmed
contents with `parseInt(s, 10)`, and falls back to
`conCode ?? signal ?? NaN` when parsing fails or the read throws; the
temp file is then cleaned up after a grace delay, with cleanup errors
logged (`console.warn`), never raised. -/

/-- JavaScript `String.prototype.trim`: strip whitespace from both
ends. -/
def jsTrim (s : String) : String :=
  ⟨((s.data.dropWhile Char.isWhitespace).reverse.dropWhile
    Char.isWhitespace).reverse⟩

/-- Value of a digit string (most significant digit first). -/
def digitsToNat (cs : List Char) : Nat :=
  cs.foldl (fun a c => a * 10 + (c.toNat - 48)) 0

/-- JavaScript `parseInt(s, 10)`: skip leading whitespace, read an
optional sign, then the longest digit prefix; `NaN` (here `none`) when no
digit is found. -/
def jsParseInt10 (s : String) : Option Int :=
  let cs := s.data.dropWhile Char.isWhitespace
  let signed : Int × List Char :=
    match cs with
    | '-' :: t => (-1, t)
    | '+' :: t => (1, t)
    | _ => (1, cs)
  let ds := signed.2.takeWhile Char.isDigit
  if ds.isEmpty then none else some (signed.1 * (digitsToNat ds : Int))

/-- Log entries emitted by the exit handler: `console.debug` on a failed
temp-file read, `console.warn` on a failed cleanup. -/
inductive WinLog where
  | debug
  | warn
  deriving DecidableEq

/-- Everything observable about the Windows exit handler: the value the
exit future resolves to, the console logs, and whether the (delayed)
temp-file cleanup was started. -/
structure WinExitOutcome where
  value : ExitVal
  logs : List WinLog
  cleanupRan : Bool
  deriving DecidableEq

/-- The fallback `conCode ?? signal ?? NaN`. -/
def winFallback (conCode : Option Int) (sig : Option String) : ExitVal :=
  match conCode with
  | some c => ExitVal.code c
  | none =>
    match sig with
    | some s => ExitVal.signal s
    | none => ExitVal.nan

/-- The Windows `onExit` handler: `fileRead` is the temp-file contents
(`none` when reading throws), `conCode`/`sig` the console process's own
raw exit code and signal, and `cleanup` the outcome of the delayed
`codeTmp.cleanup()` call in the `finally` block. -/
def windowsOnExit (fileRead : Option String) (conCode : Option Int)
    (sig : Option String) (cleanup : Except String Unit) : WinExitOutcome :=
  let main : ExitVal × List WinLog :=
    match fileRead with
    | some contents =>
      match jsParseInt10 (jsTrim contents) with
      | some n => (ExitVal.code n, [])
      | none => (winFallback conCode sig, [])
    | none => (winFallback conCode sig, [WinLog.debug])
  { value := main.1
    logs := main.2 ++
      (match cleanup with
        | Except.ok _ => []
        | Except.error _ => [WinLog.warn])
    cleanupRan := true }

/-! ## UnixPseudoterminal.resize

`resize(columns, rows)` writes `` `${columns}x${rows}\n` `` to the fourth
stdio stream (`stdio[3]`, the control stream) and touches nothing else. -/

/-- The writable streams of the Unix helper process, as the lists of
strings written to each. -/
structure UnixStreams where
  stdin : List String
  stdout : List String
  cmdio : List String
  deriving DecidableEq

/-- `UnixPseudoterminal.resize(columns, rows)`: one write of
`"<columns>x<rows>\n"` to the control stream. -/
def unixResize (s : UnixStreams) (columns rows : Nat) : UnixStreams :=
  { s with
    cmdio := s.cmdio ++ [toString columns ++ "x" ++ toString rows ++ "\n"] }

/-! ## asyncDebounce and the emulator's debounced resize

`asyncDebounce` keeps a shared `promises` array; every call pushes its
`resolve`/`reject` pair and re-arms the debouncer with its own arguments
(last call wins).  When the debouncer fires it runs the wrapped function
once, which settles -- via `promises.splice(0)` -- every pending caller
with the same single outcome. -/

/-- The async-debounce state within one debounce window: the pending
callers (in arrival order) and the coalesced arguments of the armed
debounced call. -/
structure ADState (A : Type) where
  promises : List Nat
  debounced : Option A

/-- The state before any call: no pending promises, timer idle. -/
def adInit {A : Type} : ADState A :=
  { promises := [], debounced := none }

/-- One call to the function returned by `asyncDebounce`, by caller `id`
with arguments `a`: pushes the caller's promise and re-arms the debouncer
with `a`. -/
def adCall {A : Type} (s : ADState A) (id : Nat) (a : A) : ADState A :=
  { promises := s.promises ++ [id], debounced := some a }

/-- What happens when the debounce timer fires: the list of invocations
of the wrapped function, the settlement each pending caller receives, and
the state afterwards. -/
structure ADFired (A E : Type) where
  invocations : List A
  settled : List (Nat × Except E Unit)
  after : ADState A

/-- The debounce timer firing: if no call is armed nothing happens;
otherwise the wrapped function runs once on the coalesced arguments and
every pending caller is settled with that single outcome. -/
def adFire {A E : Type} (underlying : A → Except E Unit) (s : ADState A) :
    ADFired A E :=
  match s.debounced with
  | none => { invocations := [], settled := [], after := s }
  | some a =>
    let o := underlying a
    { invocations := [a]
      settled := s.promises.map (fun i => (i, o))
      after := { promises := [], debounced := none } }

/-- The body of `XtermTerminalEmulator.#resize`: `await (await
this.#pty).resize(columns, rows); this.terminal.resize(columns, rows);
resolve()`, with `reject(error)` on failure.  Returns the outcome handed
to the callers and the `terminal.resize` call made on success. -/
def xtermResizeOnce {E : Type} (ptyResize : Nat → Nat → Except E Unit)
    (d : Nat × Nat) : Except E Unit × Option (Nat × Nat) :=
  match ptyResize d.1 d.2 with
  | Except.ok _ => (Except.ok (), some d)
  | Except.error e => (Except.error e, none)

/-! # Theorems -/

/-! ## Reference counting (C1) -/

lemma refDupN_spec (n : Nat) :
    (refDupN n).counter = (n : Int) + 1 ∧ (refDupN n).realKills = 0 ∧
    (refDupN n).exits = [] := by
  induction n with
  | zero => simp [refDupN, refNew]
  | succ k ih =>
    refine ⟨?_, ?_, ?_⟩ <;>
      simp only [refDupN, refDup, ih.1, ih.2.1, ih.2.2]
    push_cast
    ring

lemma refKillSeq_realKills (ws : List Nat) (s : RefState)
    (h1 : 1 ≤ s.counter) (h2 : (ws.length : Int) ≤ s.counter) :
    (refKillSeq s ws).realKills =
      s.realKills + (if (ws.length : Int) = s.counter then 1 else 0) := by
  induction ws generalizing s with
  | nil =>
    have : ¬((0 : Int) = s.counter) := by omega
    simp [refKillSeq, this]
  | cons w t ih =>
    have hlen : ((w :: t).length : Int) = (t.length : Int) + 1 := by
      simp
    by_cases hc : s.counter - 1 ≤ 0
    · have hc1 : s.counter = 1 := by omega
      have ht : t = [] := by
        have : (t.length : Int) ≤ 0 := by omega
        have : t.length = 0 := by omega
        simpa [List.length_eq_zero] using this
      subst ht
      simp [refKillSeq, refKill, hc, hc1]
    · have step : refKill s w =
          { s with
            counter := s.counter - 1
            exits := s.exits ++ [(w, ExitVal.code EXIT_SUCCESS)] } := by
        simp [refKill, hc]
      have h1' : 1 ≤ s.counter - 1 := by omega
      have h2' : (t.length : Int) ≤ s.counter - 1 := by omega
      have := ih ({ s with
        counter := s.counter - 1
        exits := s.exits ++ [(w, ExitVal.code EXIT_SUCCESS)] }) h1' h2'
      simp only [refKillSeq] at this ⊢
      rw [List.foldl_cons, step, this]
      by_cases he : (t.length : Int) = s.counter - 1
      · rw [if_pos he, if_pos (by omega)]
      · rw [if_neg he, if_neg (by omega)]

lemma refKillSeq_synthetic (ws : List Nat) (s : RefState)
    (h2 : (ws.length : Int) < s.counter) :
    (refKillSeq s ws).exits =
      s.exits ++ ws.map (fun w => (w, ExitVal.code EXIT_SUCCESS)) ∧
    (refKillSeq s ws).realKills = s.realKills ∧
    (refKillSeq s ws).counter = s.counter - ws.length := by
  induction ws generalizing s with
  | nil => simp [refKillSeq]
  | cons w t ih =>
    have hc : ¬(s.counter - 1 ≤ 0) := by
      have : ((w :: t).length : Int) = (t.length : Int) + 1 := by simp
      omega
    have step : refKill s w =
        { s with
          counter := s.counter - 1
          exits := s.exits ++ [(w, ExitVal.code EXIT_SUCCESS)] } := by
      simp [refKill, hc]
    have h2' : (t.length : Int) < s.counter - 1 := by
      have : ((w :: t).length : Int) = (t.length : Int) + 1 := by simp
      omega
    have := ih ({ s with
      counter := s.counter - 1
      exits := s.exits ++ [(w, ExitVal.code EXIT_SUCCESS)] }) h2'
    simp only [refKillSeq] at this ⊢
    rw [List.foldl_cons, step]
    refine ⟨?_, ?_, ?_⟩
    · rw [this.1]; simp
    · exact this.2.1
    · rw [this.2.2]; simp; omega

/-- C1 (amended): `kill()` decrements the shared counter; while the
result stays positive the calling wrapper's own exit future resolves with
the synthetic success code `EXIT_SUCCESS` and the real session is
untouched; the delegate's real kill fires exactly once, triggered only by
the (N+1)th `kill()` call after N ≥ 1 `dup()` calls (so N+1 wrappers),
independent of the order of the killing wrappers. -/
theorem C1_refcount_kill (N : Nat) (hN : 1 ≤ N) (ws : List Nat)
    (hw : ws.length = N + 1) :
    (refKillSeq (refDupN N) ws).realKills = 1 ∧
    ∀ pre suf, ws = pre ++ suf → suf ≠ [] →
      (refKillSeq (refDupN N) pre).realKills = 0 ∧
      (refKillSeq (refDupN N) pre).exits =
        pre.map (fun w => (w, ExitVal.code EXIT_SUCCESS)) := by
  obtain ⟨hcnt, hrk, hex⟩ := refDupN_spec N
  constructor
  · have h1 : 1 ≤ (refDupN N).counter := by omega
    have h2 : (ws.length : Int) ≤ (refDupN N).counter := by
      rw [hw, hcnt]; omega
    rw [refKillSeq_realKills ws _ h1 h2, hrk]
    have : ((ws.length : Int)) = (refDupN N).counter := by
      rw [hw, hcnt]; omega
    simp [this]
  · intro pre suf hsplit hsuf
    have hplen : pre.length ≤ N := by
      have h' : pre.length + suf.length = N + 1 := by
        rw [← List.length_append, ← hsplit, hw]
      have : 1 ≤ suf.length := by
        cases suf with
        | nil => exact absurd rfl hsuf
        | cons a t => simp
      omega
    have h2 : (pre.length : Int) < (refDupN N).counter := by
      rw [hcnt]; omega
    obtain ⟨he, hr, _⟩ := refKillSeq_synthetic pre _ h2
    exact ⟨by rw [hr, hrk], by rw [he, hex]; simp⟩

/-- C1 counterexample: with N = 1 `dup()` call (two wrappers sharing one
counter), the claim as stated says the real kill is triggered by the Nth
(here 1st) `kill()`; in the code the 1st kill is synthetic (it resolves
the caller's exit future with `EXIT_SUCCESS` and fires no real kill) and
the real kill fires only on the 2nd. -/
theorem C1_counterexample_first_kill :
    (refKillSeq (refDupN 1) [0]).realKills = 0 ∧
    (refKillSeq (refDupN 1) [0]).exits = [(0, ExitVal.code EXIT_SUCCESS)] ∧
    (refKillSeq (refDupN 1) [0, 1]).realKills = 1 := by decide

theorem C1_witness :
    (refKillSeq (refDupN 1) [5, 7]).realKills = 1 ∧
    (refKillSeq (refDupN 1) [5]).realKills = 0 ∧
    (refKillSeq (refDupN 1) [5]).exits = [(5, ExitVal.code EXIT_SUCCESS)] := by
  have h := C1_refcount_kill 1 (by decide) [5, 7] rfl
  exact ⟨h.1, (h.2 [5] [7] rfl (by decide)).1, (h.2 [5] [7] rfl (by decide)).2⟩

/-! ## Exit propagation through the wrapper (C9) -/

/-- C9: when the delegate session's exit future settles (resolves or
rejects) with outcome `o`, any wrapper whose own exit future is still
pending — in particular one on which `kill()` was never called — settles
with the same outcome; and a wrapper's exit cell settles at most once
(further settlements, from the delegate or from `kill()`, are no-ops). -/
theorem C9_exit_propagation (o o2 : Except String ExitVal) (w : RefWrapper)
    (c : Option (Except String ExitVal)) :
    (onDelegateExit o refWrapperNew).exitCell = some o ∧
    (w.exitCell = none → (onDelegateExit o w).exitCell = some o) ∧
    onDelegateExit o2 (onDelegateExit o w) = onDelegateExit o w ∧
    settleCell (settleCell c o) o2 = settleCell c o := by
  refine ⟨rfl, ?_, ?_, ?_⟩
  · intro h
    simp [onDelegateExit, settleCell, h]
  · cases w with
    | mk cell =>
      cases cell <;> simp [onDelegateExit, settleCell]
  · cases c <;> simp [settleCell]

theorem C9_witness :
    (onDelegateExit (Except.ok (ExitVal.code 3)) refWrapperNew).exitCell =
      some (Except.ok (ExitVal.code 3)) ∧
    (onDelegateExit (Except.error "spawn failed") refWrapperNew).exitCell =
      some (Except.error "spawn failed") ∧
    onDelegateExit (Except.ok ExitVal.nan)
        (onDelegateExit (Except.error "spawn failed") refWrapperNew) =
      onDelegateExit (Except.error "spawn failed") refWrapperNew := by
  refine ⟨?_, ?_, ?_⟩
  · exact (C9_exit_propagation (Except.ok (ExitVal.code 3))
      (Except.ok (ExitVal.code 3)) refWrapperNew none).2.1 rfl
  · exact (C9_exit_propagation (Except.error "spawn failed")
      (Except.error "spawn failed") refWrapperNew none).2.1 rfl
  · exact (C9_exit_propagation (Except.error "spawn failed")
      (Except.ok ExitVal.nan) refWrapperNew none).2.2.1

/-! ## pipe on an exited session (C2) -/

/-- C2: for every session of the `PseudoPseudoterminal` family (the base
class, `TextPseudoterminal` and `DeveloperConsolePseudoterminal`),
calling `pipe(terminal)` when the session has already exited throws
before attaching anything: the result is an error and no terminal,
addon, handler or replay is registered (the state is unchanged); when the
session has not exited, `pipe` succeeds and registers the terminal. -/
theorem C2_pipe_after_exit (s : PseudoState) (st : TextState) (sd : DevState)
    (t : Nat) :
    (s.exited = true → pseudoPipe s t = Except.error ()) ∧
    (st.base.exited = true → textPipe st t = Except.error ()) ∧
    (sd.base.exited = true → devPipe sd t = Except.error ()) ∧
    (s.exited = false → pseudoPipe s t = Except.ok
      { s with addons := s.addons ++ [t], terminals := s.terminals ++ [t] }) ∧
    (st.base.exited = false → textPipe st t = Except.ok
      { base := { st.base with
          addons := st.base.addons ++ [t]
          terminals := st.base.terminals ++ [t] }
        rewrites := st.rewrites ++ [t] }) ∧
    (sd.base.exited = false → devPipe sd t = Except.ok
      { base := { sd.base with
          addons := sd.base.addons ++ [t]
          terminals := sd.base.terminals ++ [t] }
        handlers := sd.handlers ++ [t]
        replayed := sd.replayed ++ [t] }) := by
  refine ⟨?_, ?_, ?_, ?_, ?_, ?_⟩ <;> intro h <;>
    simp [pseudoPipe, textPipe, devPipe, h]

theorem C2_witness :
    textPipe
      { base := { exited := true, terminals := [0], addons := [0] }
        rewrites := [0] } 1 = Except.error () ∧
    devPipe
      { base := { exited := true, terminals := [], addons := [] }
        handlers := []
        replayed := [] } 1 = Except.error () ∧
    pseudoPipe { exited := false, terminals := [], addons := [] } 1 =
      Except.ok { exited := false, terminals := [1], addons := [1] } := by
  refine ⟨?_, ?_, ?_⟩
  · exact (C2_pipe_after_exit { exited := true, terminals := [], addons := [] }
      { base := { exited := true, terminals := [0], addons := [0] }
        rewrites := [0] }
      { base := { exited := true, terminals := [], addons := [] }
        handlers := []
        replayed := [] } 1).2.1 rfl
  · exact (C2_pipe_after_exit { exited := true, terminals := [], addons := [] }
      { base := { exited := true, terminals := [0], addons := [0] }
        rewrites := [0] }
      { base := { exited := true, terminals := [], addons := [] }
        handlers := []
        replayed := [] } 1).2.2.1 rfl
  · exact (C2_pipe_after_exit { exited := false, terminals := [], addons := [] }
      { base := { exited := true, terminals := [0], addons := [0] }
        rewrites := [0] }
      { base := { exited := true, terminals := [], addons := [] }
        handlers := []
        replayed := [] } 1).2.2.2.1 rfl

/-! ## RefPsuedoterminal.resize delegation (C10) -/

/-- C10: when the delegate session defines no `resize` operation,
`RefPsuedoterminal.resize(columns, rows)` returns `UNDEFINED` as a no-op
and leaves the delegate's state unchanged; when the delegate defines
`resize`, the call is delegated unchanged with the same columns and
rows. -/
theorem C10_resize_delegation {σ : Type} (d : DelegateSession σ) (c r : Nat)
    (f : Nat → Nat → σ → σ) :
    (d.resizeOp = none → refResize d c r = (ResizeReturn.undef, d.state)) ∧
    (d.resizeOp = some f →
      refResize d c r = (ResizeReturn.delegated, f c r d.state)) := by
  constructor <;> intro h <;> simp [refResize, h]

theorem C10_witness :
    refResize { state := (0 : Nat), resizeOp := none } 80 24 =
      (ResizeReturn.undef, 0) ∧
    refResize
      { state := (0 : Nat)
        resizeOp := some (fun c r s => s + c + r) } 80 24 =
      (ResizeReturn.delegated, 104) := by
  constructor
  · exact (C10_resize_delegation
      { state := (0 : Nat), resizeOp := none } 80 24 (fun _ _ s => s)).1 rfl
  · exact (C10_resize_delegation
      { state := (0 : Nat), resizeOp := some (fun c r s => s + c + r) }
      80 24 (fun c r s => s + c + r)).2 rfl

/-! ## Developer-console evaluation (C3) -/

/-- C3 counterexample: evaluating code with no trailing expression, e.g.
`"let x = 1"` (whose rewritten form `"return [(let x = 1)]"` throws a
`SyntaxError` so that the code is evaluated directly, succeeding with no
value), does not "log nothing": after the echo and the `console.debug` of
the syntax error, `eval` reaches `self1.console.log(ret[0])` with
`ret = []` and logs `undefined`. -/
theorem C3_counterexample_logs_undefined :
    devEval "let x = 1"
        { parse := some true
          rewritten := RewrittenOutcome.throwSyntax
          directOk := true } =
      [ConsoleAction.echo "let x = 1", ConsoleAction.dbgLog,
        ConsoleAction.logVal JSVal.undef] ∧
    ConsoleAction.logVal JSVal.undef ∈
      devEval "let x = 1"
        { parse := some true
          rewritten := RewrittenOutcome.throwSyntax
          directOk := true } := by
  constructor
  · rfl
  · simp [devEval]

/-- C3 (amended): evaluating code whose last statement is an expression
(e.g. `"1+1"`, whose rewritten form returns `[2]`) logs its value `2`;
evaluating code with no trailing expression (e.g. `"let x = 1"`) logs
`undefined` — not nothing — and produces no error; when the
rewritten-return strategy fails with a syntax error the code is evaluated
directly for side effects only, and non-syntax evaluation errors (from
either strategy) are logged via `console.error`, never propagated. -/
theorem C3_eval_strategies (code : String) (sem : CodeSem) :
    (devEval "1+1"
        { parse := some true
          rewritten := RewrittenOutcome.retOne (JSVal.num 2)
          directOk := true } =
      [ConsoleAction.echo "1+1", ConsoleAction.logVal (JSVal.num 2)]) ∧
    (sem.parse = some true → sem.rewritten = RewrittenOutcome.throwSyntax →
      sem.directOk = true →
      devEval code sem =
        [ConsoleAction.echo code, ConsoleAction.dbgLog,
          ConsoleAction.logVal JSVal.undef]) ∧
    (sem.parse = some true → sem.rewritten = RewrittenOutcome.throwSyntax →
      sem.directOk = false →
      devEval code sem =
        [ConsoleAction.echo code, ConsoleAction.dbgLog,
          ConsoleAction.errLog]) ∧
    (sem.parse = some true → sem.rewritten = RewrittenOutcome.throwOther →
      devEval code sem = [ConsoleAction.echo code, ConsoleAction.errLog]) := by
  refine ⟨rfl, ?_, ?_, ?_⟩ <;> intro h1 h2 <;>
    first
      | (intro h3; simp [devEval, h1, h2, h3])
      | simp [devEval, h1, h2]

theorem C3_witness :
    devEval "throw new Error()"
        { parse := some true
          rewritten := RewrittenOutcome.throwOther
          directOk := false } =
      [ConsoleAction.echo "throw new Error()", ConsoleAction.errLog] ∧
    devEval "let x = 1"
        { parse := some true
          rewritten := RewrittenOutcome.throwSyntax
          directOk := true } =
      [ConsoleAction.echo "let x = 1", ConsoleAction.dbgLog,
        ConsoleAction.logVal JSVal.undef] := by
  constructor
  · exact (C3_eval_strategies "throw new Error()"
      { parse := some true
        rewritten := RewrittenOutcome.throwOther
        directOk := false }).2.2.2 rfl rfl
  · exact (C3_eval_strategies "let x = 1"
      { parse := some true
        rewritten := RewrittenOutcome.throwSyntax
        directOk := true }).2.1 rfl rfl rfl

/-! ## Session kill after process death (C5) -/

/-- C5 counterexample: a `kill()` call made after the process has already
died — when the process handle's `kill()` reports that no live process
was terminated — does not complete without failing: both the Unix and the
Windows session `kill()` throw an error in that case. -/
theorem C5_counterexample_kill_after_death :
    unixKill false = Except.error "errors.error-killing-pseudoterminal" ∧
    windowsKill false = Except.error "errors.error-killing-pseudoterminal" ∧
    unixKill false ≠ Except.ok () ∧ windowsKill false ≠ Except.ok () := by
  refine ⟨rfl, rfl, ?_, ?_⟩ <;> simp [unixKill, windowsKill]

/-- C5 (amended): for both session handles (Unix and Windows sessions),
`kill()` delegates to the process handle's `kill()` and completes
successfully exactly when the handle reports a live process was actually
terminated; when the handle reports no effect — in particular when the
process has already died — `kill()` throws rather than completing
silently. -/
theorem C5_kill_reports_failure :
    unixKill true = Except.ok () ∧
    windowsKill true = Except.ok () ∧
    unixKill false = Except.error "errors.error-killing-pseudoterminal" ∧
    windowsKill false = Except.error "errors.error-killing-pseudoterminal" := by
  exact ⟨rfl, rfl, rfl, rfl⟩

/-! ## Unix resize protocol (C7) -/

/-- C7: for every columns and rows, `UnixPseudoterminal.resize` writes
exactly the line `"<columns>x<rows>\n"` to the dedicated control stream
(`stdio[3]`) and writes nothing to stdin or stdout; in particular
`resize(80, 24)` writes exactly `"80x24\n"`. -/
theorem C7_unix_resize_protocol (s : UnixStreams) (columns rows : Nat) :
    (unixResize s columns rows).cmdio =
      s.cmdio ++ [toString columns ++ "x" ++ toString rows ++ "\n"] ∧
    (unixResize s columns rows).stdin = s.stdin ∧
    (unixResize s columns rows).stdout = s.stdout ∧
    (unixResize { stdin := [], stdout := [], cmdio := [] } 80 24).cmdio =
      ["80x24\n"] := by
  refine ⟨rfl, rfl, rfl, ?_⟩
  rfl

/-! ## Windows exit-code recovery (C6) -/

/-- C6: on shell exit the Windows session's exit future resolves to the
base-10 integer parsed from the temp file's trimmed contents (so a
wrapped command that set the error level to 3 yields exit value 3, even
when the console process's own raw exit code is different); when parsing
fails or the file cannot be read it falls back to the console process's
raw exit code, else its signal, else NaN; the exit value never depends on
the outcome of the (grace-delayed) temp-file cleanup, which always runs
and whose errors are only logged as warnings. -/
theorem C6_windows_exit_recovery (contents : String) (n : Int)
    (conCode : Option Int) (sig : Option String)
    (cleanup : Except String Unit) :
    (jsParseInt10 (jsTrim contents) = some n →
      (windowsOnExit (some contents) conCode sig cleanup).value =
        ExitVal.code n) ∧
    (jsParseInt10 (jsTrim contents) = none →
      (windowsOnExit (some contents) conCode sig cleanup).value =
        winFallback conCode sig) ∧
    (windowsOnExit none conCode sig cleanup).value =
      winFallback conCode sig ∧
    (∀ c : Int, winFallback (some c) sig = ExitVal.code c) ∧
    (∀ s : String, winFallback none (some s) = ExitVal.signal s) ∧
    winFallback none none = ExitVal.nan ∧
    (windowsOnExit (some contents) conCode sig cleanup).value =
      (windowsOnExit (some contents) conCode sig (Except.ok ())).value ∧
    (windowsOnExit (some contents) conCode sig
        (Except.error "cleanup failed")).logs =
      (windowsOnExit (some contents) conCode sig (Except.ok ())).logs ++
        [WinLog.warn] ∧
    (windowsOnExit (some contents) conCode sig cleanup).cleanupRan = true ∧
    (windowsOnExit (some " 3 ") (some 1) none cleanup).value =
      ExitVal.code 3 := by
  refine ⟨?_, ?_, ?_, fun c => rfl, fun s => rfl, rfl, ?_, ?_, ?_, ?_⟩
  · intro h; simp [windowsOnExit, h]
  · intro h; simp [windowsOnExit, h]
  · rfl
  · cases h : jsParseInt10 (jsTrim contents) <;> simp [windowsOnExit, h]
  · cases h : jsParseInt10 (jsTrim contents) <;> simp [windowsOnExit, h]
  · rfl
  · have h3 : jsParseInt10 (jsTrim " 3 ") = some 3 := by rfl
    simp [windowsOnExit, h3]

theorem C6_witness :
    (windowsOnExit (some " 3 ") (some 1) none (Except.ok ())).value =
      ExitVal.code 3 ∧
    (windowsOnExit (some "garbage") (some 5) none (Except.ok ())).value =
      winFallback (some 5) none ∧
    (windowsOnExit (some "garbage") none (some "SIGTERM")
      (Except.ok ())).value = winFallback none (some "SIGTERM") := by
  refine ⟨?_, ?_, ?_⟩
  · exact (C6_windows_exit_recovery " 3 " 3 (some 1) none (Except.ok ())).1
      (by rfl)
  · exact (C6_windows_exit_recovery "garbage" 0 (some 5) none
      (Except.ok ())).2.1 (by rfl)
  · exact (C6_windows_exit_recovery "garbage" 0 none (some "SIGTERM")
      (Except.ok ())).2.1 (by rfl)

/-! ## Developer-console history navigation (C4) -/

lemma jsRem_norm (a b : Int) (hb : 0 < b) :
    jsIdx (jsRem a b) b = a % b := by
  unfold jsRem jsIdx
  by_cases ha : a < 0
  · simp only [if_pos ha]
    have hr0 : 0 ≤ (-a) % b := Int.emod_nonneg _ (by omega)
    have hrb : (-a) % b < b := Int.emod_lt_of_pos _ hb
    have hdecomp : -a = (-a) % b + b * ((-a) / b) :=
      (Int.emod_add_ediv (-a) b).symm
    have hq : b * (-((-a) / b)) = -(b * ((-a) / b)) := by ring
    have key : a % b = (-((-a) % b)) % b := by
      conv_lhs => rw [show a = -((-a) % b) + b * (-((-a) / b)) by
        rw [hq]; omega]
      rw [Int.add_mul_emod_self_left]
    by_cases hr : (-a) % b = 0
    · rw [hr]
      simp only [neg_zero]
      rw [key, hr]
      simp
    · have hlt : -((-a) % b) < 0 := by omega
      rw [if_pos hlt, key]
      have h3 : (-((-a) % b)) % b = b - (-a) % b := by
        have h1 : (-((-a) % b)) % b = (-((-a) % b) + b * 1) % b := by
          rw [Int.add_mul_emod_self_left]
        rw [h1]
        have h2 : -((-a) % b) + b * 1 = b - (-a) % b := by ring
        rw [h2]
        exact Int.emod_eq_of_lt (by omega) (by omega)
      rw [h3]
      omega
  · simp only [if_neg ha]
    have hr0 : 0 ≤ a % b := Int.emod_nonneg _ (by omega)
    rw [if_neg (by omega)]

lemma jsAt_jsRem (l : List String) (a : Int) (hl : 0 < l.length) :
    jsAt l (jsRem a (l.length : Int)) =
      l.get? ((a % (l.length : Int)).toNat) := by
  have hb : (0 : Int) < (l.length : Int) := by exact_mod_cast hl
  have hnorm := jsRem_norm a (l.length : Int) hb
  have hm0 : 0 ≤ a % (l.length : Int) := Int.emod_nonneg _ (by omega)
  have hm1 : a % (l.length : Int) < (l.length : Int) :=
    Int.emod_lt_of_pos _ hb
  unfold jsAt
  rw [hnorm, if_pos ⟨hm0, hm1⟩]

lemma navStep_mod (hist : List String) (idx : Int) (down : Bool)
    (buf : String)
    (hnl : jsIncludesChar ((jsAt hist (-1)).getD "") '\n' = false)
    (hlen : 0 < hist.length) :
    navStep hist idx down buf =
      (jsRem (idx + (if down then 1 else -1)) (hist.length : Int),
        (hist.get? (((idx + (if down then 1 else -1)) %
          (hist.length : Int)).toNat)).getD buf) := by
  have hm0 : 0 ≤ (idx + (if down then 1 else -1)) % (hist.length : Int) :=
    Int.emod_nonneg _ (by omega)
  have hm1 : (idx + (if down then 1 else -1)) % (hist.length : Int) <
      (hist.length : Int) :=
    Int.emod_lt_of_pos _ (by exact_mod_cast hlen)
  have hrange : (((idx + (if down then 1 else -1)) %
      (hist.length : Int)).toNat) < hist.length := by omega
  unfold navStep
  rw [hnl]
  simp only [Bool.false_eq_true, if_false, if_neg (by omega : ¬hist.length ≤ 0)]
  rw [jsAt_jsRem hist _ hlen, List.get?_eq_get hrange]
  simp

/-- C4: when the current (last) history entry contains no newline,
`ArrowUp`/`ArrowDown` move the history index by one step following
`index = (index ∓ 1) mod length` (JavaScript remainder plus the
`Array.prototype.at` wrap-around, which together select the entry at the
mathematical `(index ∓ 1) mod length`) and set the buffer to the entry at
that index; concretely, on history `["a", "b", ""]` with the index at the
open entry (2), ArrowUp, ArrowUp, ArrowDown set the buffer to `"b"`,
`"a"`, and finally back to `"b"`; when the current entry contains a
newline, navigation does nothing. -/
theorem C4_history_navigation (hist : List String) (idx : Int) (down : Bool)
    (buf : String) :
    (navStep ["a", "b", ""] 2 false "" = (1, "b") ∧
      navStep ["a", "b", ""] 1 false "b" = (0, "a") ∧
      navStep ["a", "b", ""] 0 true "a" = (1, "b")) ∧
    (jsIncludesChar ((jsAt hist (-1)).getD "") '\n' = true →
      navStep hist idx down buf = (idx, buf)) ∧
    (jsIncludesChar ((jsAt hist (-1)).getD "") '\n' = false →
      0 < hist.length →
      navStep hist idx down buf =
        (jsRem (idx + (if down then 1 else -1)) (hist.length : Int),
          (hist.get? (((idx + (if down then 1 else -1)) %
            (hist.length : Int)).toNat)).getD buf)) := by
  refine ⟨⟨by decide, by decide, by decide⟩, ?_, ?_⟩
  · intro h
    unfold navStep
    rw [h]
    simp
  · intro hnl hlen
    exact navStep_mod hist idx down buf hnl hlen

theorem C4_witness :
    navStep ["a", "b", ""] 2 false "" = (1, "b") ∧
    navStep ["a", "b\nmulti"] 0 true "z" = (0, "z") ∧
    navStep ["a", "b", ""] 1 false "b" =
      (jsRem ((1 : Int) + -1) (3 : Int),
        ((["a", "b", ""].get? ((((1 : Int) + -1) % (3 : Int)).toNat)).getD
          "b")) := by
  refine ⟨(C4_history_navigation [] 0 true "").1.1, ?_, ?_⟩
  · exact (C4_history_navigation ["a", "b\nmulti"] 0 true "z").2.1 (by decide)
  · have h := (C4_history_navigation ["a", "b", ""] 1 false "b").2.2
      (by decide) (by decide)
    simpa using h

/-! ## Debounced resize fan-out (C8) -/

lemma adCall_foldl {A : Type} (calls : List (Nat × A)) (s : ADState A) :
    (calls.foldl (fun st p => adCall st p.1 p.2) s).promises =
      s.promises ++ calls.map Prod.fst ∧
    (calls.foldl (fun st p => adCall st p.1 p.2) s).debounced =
      (match calls.getLast? with
        | none => s.debounced
        | some p => some p.2) := by
  induction calls generalizing s with
  | nil => simp
  | cons p t ih =>
    simp only [List.foldl_cons]
    obtain ⟨h1, h2⟩ := ih (adCall s p.1 p.2)
    constructor
    · rw [h1]
      simp [adCall]
    · rw [h2]
      cases t with
      | nil => simp [adCall]
      | cons q u =>
        cases h : (q :: u).getLast? with
        | none =>
          rw [List.getLast?_eq_getLast (q :: u) (List.cons_ne_nil q u)] at h
          exact absurd h (by simp)
        | some pl => rw [List.getLast?_cons_cons, h]

/-- C8: issuing K ≥ 1 concurrent `resize()` calls within one debounce
window (modelled as K `adCall`s followed by one debounce firing) results
in exactly one underlying `resize(cols, rows)` invocation — on the
arguments of the last call — and all K callers' promises settle
identically (each receives the single shared outcome); and the underlying
invocation is the emulator's `#resize` body, which calls the session's
resize once and resolves on success / rejects with the session's error on
failure. -/
theorem C8_debounced_resize {A E : Type} (underlying : A → Except E Unit)
    (ptyResize : Nat → Nat → Except E Unit) (p0 : Nat × A)
    (rest : List (Nat × A)) :
    (adFire underlying
        ((p0 :: rest).foldl (fun st p => adCall st p.1 p.2)
          adInit)).invocations =
      [((p0 :: rest).getLast (List.cons_ne_nil p0 rest)).2] ∧
    (adFire underlying
        ((p0 :: rest).foldl (fun st p => adCall st p.1 p.2) adInit)).settled =
      (p0 :: rest).map (fun p =>
        (p.1,
          underlying ((p0 :: rest).getLast (List.cons_ne_nil p0 rest)).2)) ∧
    (∀ x y,
      x ∈ (adFire underlying
        ((p0 :: rest).foldl (fun st p => adCall st p.1 p.2) adInit)).settled →
      y ∈ (adFire underlying
        ((p0 :: rest).foldl (fun st p => adCall st p.1 p.2) adInit)).settled →
      x.2 = y.2) ∧
    (∀ d : Nat × Nat, ptyResize d.1 d.2 = Except.ok () →
      xtermResizeOnce ptyResize d = (Except.ok (), some d)) ∧
    (∀ (d : Nat × Nat) (e : E), ptyResize d.1 d.2 = Except.error e →
      xtermResizeOnce ptyResize d = (Except.error e, none)) := by
  obtain ⟨hp, hd⟩ := adCall_foldl (p0 :: rest) (adInit (A := A))
  have hlast : (p0 :: rest).getLast? =
      some ((p0 :: rest).getLast (List.cons_ne_nil p0 rest)) :=
    List.getLast?_eq_getLast _ _
  have hfire : adFire underlying
      ((p0 :: rest).foldl (fun st p => adCall st p.1 p.2) adInit) =
      { invocations := [((p0 :: rest).getLast (List.cons_ne_nil p0 rest)).2]
        settled := ((p0 :: rest).map Prod.fst).map (fun i =>
          (i, underlying ((p0 :: rest).getLast (List.cons_ne_nil p0 rest)).2))
        after := { promises := [], debounced := none } } := by
    rw [show adFire underlying
        ((p0 :: rest).foldl (fun st p => adCall st p.1 p.2) adInit) =
        adFire underlying
          { promises := (p0 :: rest).map Prod.fst
            debounced :=
              some ((p0 :: rest).getLast (List.cons_ne_nil p0 rest)).2 } by
      congr 1
      cases h : (p0 :: rest).foldl (fun st p => adCall st p.1 p.2) adInit with
      | mk pr de =>
        rw [h] at hp hd
        simp only at hp hd
        rw [hlast] at hd
        simp [adInit] at hp hd
        simp [hp, hd]]
    rfl
  refine ⟨?_, ?_, ?_, ?_, ?_⟩
  · rw [hfire]
  · rw [hfire]
    simp [List.map_map]
  · intro x y hx hy
    rw [hfire] at hx hy
    simp only [List.mem_map] at hx hy
    obtain ⟨i, _, hix⟩ := hx
    obtain ⟨j, _, hjy⟩ := hy
    rw [← hix, ← hjy]
  · intro d h
    simp [xtermResizeOnce, h]
  · intro d e h
    simp [xtermResizeOnce, h]

theorem C8_witness :
    (adFire
        (fun d : Nat × Nat =>
          (xtermResizeOnce (E := String) (fun _ _ => Except.ok ()) d).1)
        (([((0 : Nat), ((80 : Nat), (24 : Nat))), (1, (100, 30)),
            (2, (120, 40))]).foldl
          (fun st p => adCall st p.1 p.2) adInit)).invocations =
      [(120, 40)] ∧
    (adFire
        (fun d : Nat × Nat =>
          (xtermResizeOnce (E := String) (fun _ _ => Except.ok ()) d).1)
        (([((0 : Nat), ((80 : Nat), (24 : Nat))), (1, (100, 30)),
            (2, (120, 40))]).foldl
          (fun st p => adCall st p.1 p.2) adInit)).settled =
      [(0, Except.ok ()), (1, Except.ok ()), (2, Except.ok ())] ∧
    xtermResizeOnce (E := String) (fun _ _ => Except.ok ()) (120, 40) =
      (Except.ok (), some (120, 40)) := by
  have h := C8_debounced_resize
    (fun d : Nat × Nat =>
      (xtermResizeOnce (E := String) (fun _ _ => Except.ok ()) d).1)
    (fun _ _ => Except.ok ())
    ((0 : Nat), ((80 : Nat), (24 : Nat))) [(1, (100, 30)), (2, (120, 40))]
  refine ⟨?_, ?_, ?_⟩
  · rw [h.1]
    rfl
  · rw [h.2.1]
    rfl
  · exact h.2.2.2.1 (120, 40) rfl
